import Mathlib

/-!
Verification of the concurrent fetch-extract-aggregate pipeline of the
nyt-best-sellers scraper.  The source program is embedded shallowly:

- HTML documents are modelled by a tree type Node with tag names, class
  lists, attribute lists and children; the BeautifulSoup operations used
  by the source (find_all, find, text, attribute access) are modelled as
  document-order searches over descendants.
- Python datetime objects are modelled by their proleptic-Gregorian
  ordinal (an integer); the conversions ymd2ord and ord2ymd mirror the
  hierarchical divmod algorithms of the CPython datetime module, and
  timedelta subtraction is integer subtraction on ordinals.
- The network is an oracle mapping a URL and a timeout to a response
  (status, parsed content, raw text) or a timeout; requests.get with
  the timeout keyword consults this oracle.
- Raised Python exceptions are modelled by the Except monad with an
  error taxonomy of fetch errors (non-success status, carrying status
  and body, and timeouts) and parse errors (missing structural
  elements, date format mismatches).
- The multiprocessing pool is modelled by precomputing every task
  result and letting an arbitrary completion order (a permutation of
  the task indices) decide which failure surfaces; successful results
  are placed at the index of their originating input, as pool.map does.
-/

namespace NytBestSellers

/-- HTML tree as produced by the parser: an element has a tag name, a list
of classes, a list of attributes and children, and a leaf holds text. -/
inductive Node : Type where
  | elem (tag : String) (classes : List String) (attrs : List (String × String)) (children : List Node)
  | text (s : String)

mutual

/-- All descendants of a node in document order (pre-order), the node
itself excluded, as BeautifulSoup find_all enumerates them. -/
def Node.descendants : Node → List Node
  | .elem _ _ _ cs => Node.descList cs
  | .text _ => []

/-- Descendants of a list of siblings, each sibling included, in document
order. -/
def Node.descList : List Node → List Node
  | [] => []
  | c :: cs => c :: Node.descendants c ++ Node.descList cs

end

mutual

/-- Concatenation of all text below a node, the model of the text
property of BeautifulSoup elements. -/
def Node.innerText : Node → String
  | .elem _ _ _ cs => Node.textList cs
  | .text s => s

/-- Concatenated text of a list of siblings in document order. -/
def Node.textList : List Node → String
  | [] => ""
  | c :: cs => Node.innerText c ++ Node.textList cs

end

/-- Tag-name test: the node is an element with the given tag. -/
def Node.isElem (tag : String) : Node → Bool
  | .elem t _ _ _ => t == tag
  | .text _ => false

/-- Class test: the element carries the given CSS class, the model of the
keyword argument written class underscore in BeautifulSoup calls. -/
def Node.hasClass (c : String) : Node → Bool
  | .elem _ cls _ _ => cls.contains c
  | .text _ => false

/-- Attribute-presence test, the model of an attrs filter that maps the
attribute name to True. -/
def Node.hasAttr (a : String) : Node → Bool
  | .elem _ _ attrs _ => (attrs.lookup a).isSome
  | .text _ => false

/-- Attribute lookup, the model of subscripting an element with an
attribute name; a missing attribute gives none (a KeyError in Python). -/
def Node.attr (a : String) : Node → Option String
  | .elem _ _ attrs _ => attrs.lookup a
  | .text _ => none

/-- Model of soup.find_all(...): every descendant matching the predicate,
in document order. -/
def findAll (p : Node → Bool) (n : Node) : List Node :=
  (Node.descendants n).filter p

/-- Model of soup.find(...): the first matching descendant, or none. -/
def find (p : Node → Bool) (n : Node) : Option Node :=
  (findAll p n).head?

/-- Predicate selecting the top-level container: a div carrying the
itemscope attribute, as in soup.find_all on line 62 of the source. -/
def containerPred (n : Node) : Bool :=
  n.isElem "div" && n.hasAttr "itemscope"

/-- Predicate selecting a category block: a div of class css-v2kl5d, as on
line 63 of the source. -/
def categoryPred (n : Node) : Bool :=
  n.isElem "div" && n.hasClass "css-v2kl5d"

/-- Predicate selecting an item (book) block: an li of class css-1mr03gh,
as on line 69 of the source. -/
def bookPred (n : Node) : Bool :=
  n.isElem "li" && n.hasClass "css-1mr03gh"

/-- Predicate selecting the title element of a book: an h3 of class
css-i1z3c1, line 72 of the source. -/
def titlePred (n : Node) : Bool :=
  n.isElem "h3" && n.hasClass "css-i1z3c1"

/-- Predicate selecting the description element of a book: a p of class
css-5yxv3r, line 73 of the source. -/
def descriptionPred (n : Node) : Bool :=
  n.isElem "p" && n.hasClass "css-5yxv3r"

/-- Predicate selecting any img element, line 74 of the source. -/
def imgPred (n : Node) : Bool :=
  n.isElem "img"

/-- Predicate selecting any h2 element, the category heading of line 68 of
the source. -/
def headingPred (n : Node) : Bool :=
  n.isElem "h2"

/-- One ranked book entry as built on lines 76-81 of the source. -/
structure Book where
  position : Nat
  title : String
  description : String
  image_url : String
deriving Repr, DecidableEq

/-- One category entry as appended on lines 85-88 of the source. -/
structure CategoryRecord where
  category : String
  books : List Book
deriving Repr, DecidableEq

/-- The per-week record returned by scrape_best_seller. -/
structure WeekResult where
  week : Nat
  data : List CategoryRecord
deriving Repr, DecidableEq

/-- Error taxonomy of the run: a non-success HTTP response carrying status
and body, a network timeout, or a missing or malformed structural
element. -/
inductive ScrapeError : Type where
  | fetchError (status : Nat) (body : String)
  | fetchTimeout
  | parseError (reason : String)
deriving Repr, DecidableEq

/-- Classification of fetch-side failures: both a non-success status and a
timeout count as fetch errors in the error taxonomy of the spec. -/
def ScrapeError.isFetchGroup : ScrapeError → Bool
  | .fetchError _ _ => true
  | .fetchTimeout => true
  | .parseError _ => false

/-- The outcome the network oracle can give for one request: a response
with status code, parsed document and raw body text, or a timeout. -/
inductive NetResult : Type where
  | response (status : Nat) (content : Node) (body : String)
  | timeout

/-- The network oracle: url and timeout argument to outcome. -/
def Net : Type := String → Nat → NetResult

/-- Truth value of an Except outcome: true on ok, false on error. -/
def exOk {α : Type} : Except ScrapeError α → Bool
  | .ok _ => true
  | .error _ => false

instance {ε α : Type} [DecidableEq ε] [DecidableEq α] : DecidableEq (Except ε α)
  | .ok a, .ok b => if h : a = b then .isTrue (by rw [h]) else .isFalse (by simp [h])
  | .ok _, .error _ => .isFalse (by simp)
  | .error _, .ok _ => .isFalse (by simp)
  | .error e, .error f => if h : e = f then .isTrue (by rw [h]) else .isFalse (by simp [h])

/-- Proleptic-Gregorian leap-year test, as in the datetime module. -/
def isLeap (y : Int) : Bool :=
  decide (y % 4 = 0 ∧ (y % 100 ≠ 0 ∨ y % 400 = 0))

/-- Days in each month of a non-leap year, indexed 1 to 12. -/
def daysInMonthTable (m : Int) : Int :=
  if m = 1 then 31 else if m = 2 then 28 else if m = 3 then 31 else if m = 4 then 30
  else if m = 5 then 31 else if m = 6 then 30 else if m = 7 then 31 else if m = 8 then 31
  else if m = 9 then 30 else if m = 10 then 31 else if m = 11 then 30 else 31

/-- Days in the year strictly before month m, in a non-leap year. -/
def daysBeforeMonthTable (m : Int) : Int :=
  if m = 1 then 0 else if m = 2 then 31 else if m = 3 then 59 else if m = 4 then 90
  else if m = 5 then 120 else if m = 6 then 151 else if m = 7 then 181 else if m = 8 then 212
  else if m = 9 then 243 else if m = 10 then 273 else if m = 11 then 304 else 334

/-- Number of days before January 1 of the given year, counted from the
proleptic ordinal origin, as in the datetime module. -/
def daysBeforeYear (year : Int) : Int :=
  (year - 1) * 365 + (year - 1) / 4 - (year - 1) / 100 + (year - 1) / 400

/-- Days in the year strictly before month m of the given year. -/
def daysBeforeMonth (year m : Int) : Int :=
  daysBeforeMonthTable m + (if 2 < m ∧ isLeap year then 1 else 0)

/-- Days in month m of the given year. -/
def daysInMonth (year m : Int) : Int :=
  daysInMonthTable m + (if m = 2 ∧ isLeap year then 1 else 0)

/-- Calendar date to proleptic ordinal (January 1 of year 1 is day 1), the
model of the datetime constructor plus toordinal. -/
def ymd2ord (year m d : Int) : Int :=
  daysBeforeYear year + daysBeforeMonth year m + d

/-- Leap test expressed on the divmod decomposition of an ordinal, as the
datetime module computes it while converting an ordinal to a date. -/
def isLeapOfEra (ny n4 n100 : Int) : Bool :=
  decide (ny = 3 ∧ (n4 ≠ 24 ∨ n100 = 3))

/-- Core of the ordinal-to-date conversion of the datetime module, taking
the four quotients (400-year eras, centuries, 4-year blocks, years) and
the remaining day count within the year. -/
def ord2ymdAux (n400 n100 n4 ny n : Int) : Int × Int × Int :=
  let year := n400 * 400 + n100 * 100 + n4 * 4 + ny + 1
  if ny = 4 ∨ n100 = 4 then
    (year - 1, 12, 31)
  else
    let lp := isLeapOfEra ny n4 n100
    let month := (n + 50) / 32
    let preceding := daysBeforeMonthTable month + (if 2 < month ∧ lp then 1 else 0)
    if n < preceding then
      (year, month - 1,
        n - (preceding - (daysInMonthTable (month - 1)
          + (if month - 1 = 2 ∧ lp then 1 else 0))) + 1)
    else
      (year, month, n - preceding + 1)

/-- Proleptic ordinal to calendar date, the model of datetime
fromordinal: hierarchical divmod into eras, centuries, 4-year blocks and
years, then the month estimate with a one-month correction. -/
def ord2ymd (nn : Int) : Int × Int × Int :=
  ord2ymdAux ((nn - 1) / 146097) ((nn - 1) % 146097 / 36524)
    ((nn - 1) % 146097 % 36524 / 1461)
    ((nn - 1) % 146097 % 36524 % 1461 / 365)
    ((nn - 1) % 146097 % 36524 % 1461 % 365)

/-- Zero-padding to width two, the strftime rendering of month and day. -/
def pad2 (v : Int) : String :=
  if 0 ≤ v ∧ v < 10 then "0" ++ toString v else toString v

/-- Zero-padding to width four, the strftime rendering of the year. -/
def pad4 (v : Int) : String :=
  if 0 ≤ v ∧ v < 10 then "000" ++ toString v
  else if 0 ≤ v ∧ v < 100 then "00" ++ toString v
  else if 0 ≤ v ∧ v < 1000 then "0" ++ toString v
  else toString v

/-- Model of strftime with format Y slash m slash d applied to a datetime
given by its ordinal. -/
def strftimeYMD (z : Int) : String :=
  pad4 (ord2ymd z).1 ++ "/" ++ pad2 (ord2ymd z).2.1 ++ "/" ++ pad2 (ord2ymd z).2.2

/-- English month names in order, the alternatives of the strptime B
directive. -/
def monthNames : List String :=
  ["January", "February", "March", "April", "May", "June", "July",
   "August", "September", "October", "November", "December"]

/-- Match a month name at the head of the character stream, returning its
1-based month number and the remaining characters. -/
def matchMonth : List String → Nat → List Char → Option (Nat × List Char)
  | [], _, _ => none
  | nm :: rest, i, cs =>
      if nm.toList.isPrefixOf cs then some (i, cs.drop nm.toList.length)
      else matchMonth rest (i + 1) cs

/-- Longest run of leading decimal digits and the rest of the stream. -/
def spanDigits : List Char → List Char × List Char
  | [] => ([], [])
  | c :: cs =>
      if c.isDigit then
        let p := spanDigits cs
        (c :: p.1, p.2)
      else ([], c :: cs)

/-- Numeric value of a digit run. -/
def digitsToNat (ds : List Char) : Nat :=
  ds.foldl (fun a c => 10 * a + (c.toNat - 48)) 0

/-- Model of strptime with format B d comma Y followed by the datetime
validity checks: a full month name, a space, a one- or two-digit day, a
comma and a space, then a four-digit year consuming the whole string; the
day must exist in that month and the year be positive.  A successful
parse yields the proleptic ordinal of the date. -/
def strptimeBdY (s : String) : Option Int :=
  match matchMonth monthNames 1 s.toList with
  | none => none
  | some (m, r1) =>
    match r1 with
    | ' ' :: r2 =>
      let p := spanDigits r2
      if p.1.length = 0 ∨ 2 < p.1.length then none
      else
        let d := digitsToNat p.1
        match p.2 with
        | ',' :: ' ' :: r4 =>
          let q := spanDigits r4
          if q.1.length = 4 ∧ q.2 = [] then
            let y := digitsToNat q.1
            if 1 ≤ d ∧ (d : Int) ≤ daysInMonth y m ∧ 1 ≤ y then
              some (ymd2ord y m d)
            else none
          else none
        | _ => none
    | _ => none

/-- Model of lines 54-57 of the source: the historical date is the
reference date minus seven days per week offset, and the locator is the
fixed base path followed by that date rendered as Y slash m slash d and a
trailing slash. -/
def build_locator (date : Int) (week : Nat) : String :=
  "https://www.nytimes.com/books/best-sellers/" ++ strftimeYMD (date - 7 * (week : Int)) ++ "/"

/-- Address of the landing page fetched by get_main_date, line 19 of the
source. -/
def mainURL : String :=
  "https://www.nytimes.com/books/best-sellers"

/-- Predicate selecting the date-bearing element of the landing page: a
time element of class css-6068ga, line 25 of the source. -/
def timePred (n : Node) : Bool :=
  n.isElem "time" && n.hasClass "css-6068ga"

/-- Model of lines 19-29 of the source, get_main_date: fetch the landing
page with a timeout of 5, raise on a non-success status, locate the time
element of class css-6068ga, and parse its text with strptime. -/
def get_main_date (net : Net) : Except ScrapeError Int :=
  match net mainURL 5 with
  | .timeout => .error .fetchTimeout
  | .response status content body =>
    if status = 200 then
      match find timePred content with
      | none => .error (.parseError "time element not found")
      | some t =>
        match strptimeBdY t.innerText with
        | none => .error (.parseError "date text does not match format")
        | some d => .ok d
    else .error (.fetchError status body)

/-- Model of the Python strip method: remove leading and trailing
whitespace characters. -/
def pyStrip (s : String) : String :=
  ⟨((s.data.dropWhile Char.isWhitespace).reverse.dropWhile Char.isWhitespace).reverse⟩

/-- Model of lines 72-83 of the source: extract one book from an item
block at the given 1-based rank; a missing title, description, image or
image src aborts with a parse error. -/
def extractBook (position : Nat) (b : Node) : Except ScrapeError Book :=
  match find titlePred b with
  | none => .error (.parseError "book title element not found")
  | some h3 =>
    match find descriptionPred b with
    | none => .error (.parseError "book description element not found")
    | some p =>
      match find imgPred b with
      | none => .error (.parseError "book image element not found")
      | some img =>
        match img.attr "src" with
        | none => .error (.parseError "book image src attribute not found")
        | some src => .ok ⟨position, pyStrip h3.innerText, pyStrip p.innerText, src⟩

/-- Model of the enumerate loop of lines 71-83 of the source: extract each
item block in order, ranks counting up from the given start. -/
def extractBooksFrom (position : Nat) : List Node → Except ScrapeError (List Book)
  | [] => .ok []
  | b :: rest =>
    match extractBook position b with
    | .error e => .error e
    | .ok bk =>
      match extractBooksFrom (position + 1) rest with
      | .error e => .error e
      | .ok bks => .ok (bk :: bks)

/-- Model of lines 65-88 of the source for one category block: the first
h2 descendant gives the category name (a missing one aborts with a parse
error), and the item blocks of class css-1mr03gh are extracted in
document order with ranks from 1. -/
def extractCategory (c : Node) : Except ScrapeError CategoryRecord :=
  match find headingPred c with
  | none => .error (.parseError "category heading not found")
  | some h2 =>
    match extractBooksFrom 1 (findAll bookPred c) with
    | .error e => .error e
    | .ok bks => .ok ⟨h2.innerText, bks⟩

/-- Extraction of every category block in document order; the first
failing block aborts the whole document. -/
def extractCategories : List Node → Except ScrapeError (List CategoryRecord)
  | [] => .ok []
  | c :: cs =>
    match extractCategory c with
    | .error e => .error e
    | .ok r =>
      match extractCategories cs with
      | .error e => .error e
      | .ok rs => .ok (r :: rs)

/-- Model of lines 62-88 of the source: take the first div carrying the
itemscope attribute (its absence aborts with a parse error, an IndexError
in Python), then extract each category block of class css-v2kl5d found
inside it, in document order. -/
def extractDoc (soup : Node) : Except ScrapeError (List CategoryRecord) :=
  match findAll containerPred soup with
  | [] => .error (.parseError "best-seller container not found")
  | container :: _ => extractCategories (findAll categoryPred container)

/-- Model of scrape_best_seller, lines 32-91 of the source: build the
locator for the week, fetch it with a timeout of 5, and on a success
status extract the document into a per-week record tagged with the week
offset; a non-success status raises an error carrying status and body. -/
def scrape_best_seller (net : Net) (week : Nat) (date : Int) : Except ScrapeError WeekResult :=
  match net (build_locator date week) 5 with
  | .timeout => .error .fetchTimeout
  | .response status content body =>
    if status = 200 then
      match extractDoc content with
      | .error e => .error e
      | .ok cats => .ok ⟨week, cats⟩
    else .error (.fetchError status body)

/-- First error among the precomputed task results, in the order tasks
complete; indices beyond the result list are skipped. -/
def firstCompletedError {α : Type} (res : List (Except ScrapeError α)) : List Nat → Option ScrapeError
  | [] => none
  | i :: rest =>
    match res.get? i with
    | some (.error e) => some e
    | _ => firstCompletedError res rest

/-- Successful values of a result list in input order; the first error in
input order aborts (only consulted when no task failed). -/
def seqOks {α : Type} : List (Except ScrapeError α) → Except ScrapeError (List α)
  | [] => .ok []
  | .ok a :: rest =>
    match seqOks rest with
    | .error e => .error e
    | .ok l => .ok (a :: l)
  | .error e :: _ => .error e

/-- Denotation of pool.map over a fail-fast task: every task result is
computed, an arbitrary completion order decides which failure surfaces,
and when no task fails the values are collected in input order, each at
the index of its originating input. -/
def poolMap {α : Type} (task : Nat → Except ScrapeError α) (inputs : List Nat)
    (order : List Nat) : Except ScrapeError (List α) :=
  let res := inputs.map task
  match firstCompletedError res order with
  | some e => .error e
  | none => seqOks res

/-- Model of the pipeline of lines 99-101 of the source: pool.map of
scrape_best_seller with the resolved date over the week offsets.  The
pool size only influences scheduling, which the completion order
argument captures; it does not enter the data flow. -/
def run (net : Net) (date : Int) (poolSize : Nat) (offsets : List Nat)
    (order : List Nat) : Except ScrapeError (List WeekResult) :=
  let _ := poolSize
  poolMap (fun w => scrape_best_seller net w date) offsets order

/-- The document has at least one top-level scoped container. -/
def hasContainer (doc : Node) : Bool :=
  !(findAll containerPred doc).isEmpty

/-- The category blocks the extractor walks: the css-v2kl5d divs inside
the first scoped container, in document order. -/
def categoryBlocks (doc : Node) : List Node :=
  match findAll containerPred doc with
  | [] => []
  | c :: _ => findAll categoryPred c

/-- The item blocks of one category, in document order. -/
def bookBlocks (c : Node) : List Node :=
  findAll bookPred c

/-- The item block has no title element. -/
def bookLacksTitle (b : Node) : Bool :=
  (find titlePred b).isNone

/-- The item block has no description element. -/
def bookLacksDescription (b : Node) : Bool :=
  (find descriptionPred b).isNone

/-- The item block has no image element. -/
def bookLacksImage (b : Node) : Bool :=
  (find imgPred b).isNone

/-- The item block has an image element, but that element carries no src
attribute. -/
def bookImageLacksSrc (b : Node) : Bool :=
  match find imgPred b with
  | none => false
  | some i => (i.attr "src").isNone

/-- The category block has no heading element. -/
def catLacksHeading (c : Node) : Bool :=
  (find headingPred c).isNone

/-- Every way one item block can make extraction fail. -/
def badBook (b : Node) : Bool :=
  bookLacksTitle b || bookLacksDescription b || bookLacksImage b || bookImageLacksSrc b

/-- Every way one category block can make extraction fail. -/
def badCategory (c : Node) : Bool :=
  catLacksHeading c || (bookBlocks c).any badBook

/-- The failure conditions exactly as claimed: container absent, a
category without heading, or an item without title, description or image
element. -/
def claimedBad (doc : Node) : Bool :=
  !hasContainer doc ||
  (categoryBlocks doc).any (fun c =>
    catLacksHeading c ||
    (bookBlocks c).any (fun b =>
      bookLacksTitle b || bookLacksDescription b || bookLacksImage b))

/-- The amended failure conditions: the claimed ones, plus an item whose
image element lacks a src attribute. -/
def amendedBad (doc : Node) : Bool :=
  !hasContainer doc || (categoryBlocks doc).any badCategory

/-- Heading text of a category block, empty when no heading exists. -/
def headingTextD (c : Node) : String :=
  ((find headingPred c).map Node.innerText).getD ""

/-- Sample document whose container holds no category blocks. -/
def emptyContainerDoc : Node :=
  .elem "html" [] [] [.elem "div" [] [("itemscope", "itemscope")] []]

/-- Network oracle answering every request with the empty-container
document and a success status. -/
def okNet : Net := fun _ _ => .response 200 emptyContainerDoc ""

/-- A fixed reference ordinal, the date 2023-10-08. -/
def wDate : Int := 738801

/-- Network oracle failing the request for week offset 1 with a 404 and
answering every other request with a success. -/
def failNet : Net := fun url _ =>
  if url == build_locator wDate 1 then .response 404 emptyContainerDoc "not found"
  else .response 200 emptyContainerDoc ""

/-- Item block whose image element carries no src attribute but which has
title, description and image elements. -/
def srcLessItem : Node :=
  .elem "li" ["css-1mr03gh"] []
    [.elem "h3" ["css-i1z3c1"] [] [.text "T"],
     .elem "p" ["css-5yxv3r"] [] [.text "D"],
     .elem "img" [] [] []]

/-- Document that is well formed by the claimed conditions yet fails
extraction: its single item has an image element without a src
attribute. -/
def srcLessDoc : Node :=
  .elem "html" [] []
    [.elem "div" [] [("itemscope", "itemscope")]
      [.elem "div" ["css-v2kl5d"] []
        [.elem "h2" [] [] [.text "X"], srcLessItem]]]

/-- The fixed fake document of the round-trip scenario: one category named
Hardcover Fiction holding two complete items. -/
def fakeDoc : Node :=
  .elem "html" [] []
    [.elem "div" [] [("itemscope", "itemscope")]
      [.elem "div" ["css-v2kl5d"] []
        [.elem "h2" [] [] [.text "Hardcover Fiction"],
         .elem "ol" [] []
           [.elem "li" ["css-1mr03gh"] []
              [.elem "h3" ["css-i1z3c1"] [] [.text "Book A"],
               .elem "p" ["css-5yxv3r"] [] [.text "Description A"],
               .elem "img" [] [("src", "imageA.jpg")] []],
            .elem "li" ["css-1mr03gh"] []
              [.elem "h3" ["css-i1z3c1"] [] [.text "Book B"],
               .elem "p" ["css-5yxv3r"] [] [.text "Description B"],
               .elem "img" [] [("src", "imageB.jpg")] []]]]]]

/-- The record the round-trip scenario expects from the fake document. -/
def fakeExpected : List CategoryRecord :=
  [⟨"Hardcover Fiction",
    [⟨1, "Book A", "Description A", "imageA.jpg"⟩,
     ⟨2, "Book B", "Description B", "imageB.jpg"⟩]⟩]

/-- The result list the fixed success network yields for offsets 0, 1,
2. -/
def runExpected : List WeekResult :=
  [⟨0, []⟩, ⟨1, []⟩, ⟨2, []⟩]

/-- The category record of the round-trip scenario. -/
def fakeCat : CategoryRecord :=
  ⟨"Hardcover Fiction",
    [⟨1, "Book A", "Description A", "imageA.jpg"⟩,
     ⟨2, "Book B", "Description B", "imageB.jpg"⟩]⟩

/-- A category block holding a heading but no item blocks. -/
def emptyCat : Node :=
  .elem "div" ["css-v2kl5d"] [] [.elem "h2" [] [] [.text "Poetry"]]

/-- Landing page bearing a date element, for exercising get_main_date. -/
def mainDoc : Node :=
  .elem "html" [] [] [.elem "time" ["css-6068ga"] [] [.text "October 8, 2023"]]

/-- Network oracle answering every request with the landing page. -/
def mainNet : Net := fun _ _ => .response 200 mainDoc ""

theorem extractBook_ok (k : Nat) (b : Node) :
    exOk (extractBook k b) = !badBook b := by
  simp only [extractBook, badBook, bookLacksTitle, bookLacksDescription, bookLacksImage,
    bookImageLacksSrc]
  cases h1 : find titlePred b with
  | none => simp [exOk]
  | some t =>
    cases h2 : find descriptionPred b with
    | none => simp [exOk]
    | some p =>
      cases h3 : find imgPred b with
      | none => simp [exOk]
      | some im =>
        cases h4 : im.attr "src" with
        | none => simp [exOk, h4]
        | some s => simp [exOk, h4]

theorem extractBook_error_shape (k : Nat) (b : Node) (e : ScrapeError)
    (h : extractBook k b = .error e) : ∃ r, e = .parseError r := by
  simp only [extractBook] at h
  cases h1 : find titlePred b <;> simp only [h1] at h
  case none => injection h with h5; exact ⟨_, h5.symm⟩
  case some t =>
    cases h2 : find descriptionPred b <;> simp only [h2] at h
    case none => injection h with h5; exact ⟨_, h5.symm⟩
    case some p =>
      cases h3 : find imgPred b <;> simp only [h3] at h
      case none => injection h with h5; exact ⟨_, h5.symm⟩
      case some im =>
        cases h4 : im.attr "src" <;> simp only [h4] at h
        case none => injection h with h5; exact ⟨_, h5.symm⟩
        case some s => exact Except.noConfusion h

theorem extractBooksFrom_ok (bs : List Node) (k : Nat) :
    exOk (extractBooksFrom k bs) = !(bs.any badBook) := by
  induction bs generalizing k with
  | nil => simp [extractBooksFrom, exOk]
  | cons b rest ih =>
    simp only [extractBooksFrom, List.any_cons]
    cases hb : extractBook k b with
    | error e =>
      have := extractBook_ok k b
      rw [hb] at this
      simp [exOk, ← this]
    | ok bk =>
      have := extractBook_ok k b
      rw [hb] at this
      cases hr : extractBooksFrom (k + 1) rest with
      | error e =>
        have h2 := ih (k + 1)
        rw [hr] at h2
        simp [exOk, ← this, ← h2]
      | ok bks =>
        have h2 := ih (k + 1)
        rw [hr] at h2
        simp [exOk, ← this, ← h2]

theorem extractBooksFrom_error_shape (bs : List Node) (k : Nat) (e : ScrapeError)
    (h : extractBooksFrom k bs = .error e) : ∃ r, e = .parseError r := by
  induction bs generalizing k with
  | nil => simp [extractBooksFrom] at h
  | cons b rest ih =>
    simp only [extractBooksFrom] at h
    cases hb : extractBook k b <;> rw [hb] at h
    case error e2 =>
      cases h
      exact extractBook_error_shape k b _ hb
    case ok bk =>
      cases hr : extractBooksFrom (k + 1) rest <;> rw [hr] at h
      case error e2 =>
        cases h
        exact ih (k + 1) hr
      case ok bks => cases h

theorem extractBooksFrom_positions (bs : List Node) (k : Nat) (l : List Book)
    (h : extractBooksFrom k bs = .ok l) :
    l.map Book.position = List.range' k l.length := by
  induction bs generalizing k l with
  | nil =>
    simp only [extractBooksFrom] at h
    cases h
    simp
  | cons b rest ih =>
    simp only [extractBooksFrom] at h
    cases hb : extractBook k b <;> rw [hb] at h
    case error e => cases h
    case ok bk =>
      cases hr : extractBooksFrom (k + 1) rest <;> rw [hr] at h
      case error e => cases h
      case ok bks =>
        cases h
        have hpos : bk.position = k := by
          simp only [extractBook] at hb
          cases h1 : find titlePred b <;> simp only [h1] at hb
          case none => exact Except.noConfusion hb
          case some t =>
            cases h2 : find descriptionPred b <;> simp only [h2] at hb
            case none => exact Except.noConfusion hb
            case some p =>
              cases h3 : find imgPred b <;> simp only [h3] at hb
              case none => exact Except.noConfusion hb
              case some im =>
                cases h4 : im.attr "src" <;> simp only [h4] at hb
                case none => exact Except.noConfusion hb
                case some s =>
                  injection hb with h5
                  rw [← h5]
        simp [hpos, ih (k + 1) bks hr, List.range'_succ]

theorem extractCategory_ok (c : Node) :
    exOk (extractCategory c) = !badCategory c := by
  simp only [extractCategory, badCategory, catLacksHeading, bookBlocks]
  cases h1 : find headingPred c with
  | none => simp [exOk]
  | some h2 =>
    cases hb : extractBooksFrom 1 (findAll bookPred c) with
    | error e =>
      have h3 := extractBooksFrom_ok (findAll bookPred c) 1
      rw [hb] at h3
      simp only [Option.isNone_some, Bool.false_or]
      simpa [exOk] using h3
    | ok bks =>
      have h3 := extractBooksFrom_ok (findAll bookPred c) 1
      rw [hb] at h3
      simp only [Option.isNone_some, Bool.false_or]
      simpa [exOk] using h3

theorem extractCategory_error_shape (c : Node) (e : ScrapeError)
    (h : extractCategory c = .error e) : ∃ r, e = .parseError r := by
  simp only [extractCategory] at h
  cases h1 : find headingPred c <;> simp only [h1] at h
  case none => injection h with h5; exact ⟨_, h5.symm⟩
  case some h2 =>
    cases hb : extractBooksFrom 1 (findAll bookPred c) <;> simp only [hb] at h
    case error e2 =>
      injection h with h5
      rw [← h5]
      exact extractBooksFrom_error_shape _ 1 e2 hb
    case ok bks => exact Except.noConfusion h

theorem extractCategory_fields (c : Node) (r : CategoryRecord)
    (h : extractCategory c = .ok r) :
    r.category = headingTextD c ∧ extractBooksFrom 1 (bookBlocks c) = .ok r.books := by
  simp only [extractCategory] at h
  cases h1 : find headingPred c <;> simp only [h1] at h
  case none => exact Except.noConfusion h
  case some h2 =>
    cases hb : extractBooksFrom 1 (findAll bookPred c) <;> simp only [hb] at h
    case error e2 => exact Except.noConfusion h
    case ok bks =>
      injection h with h5
      rw [← h5]
      exact ⟨by simp [headingTextD, h1], by simp [bookBlocks, hb]⟩

theorem extractCategories_ok (cs : List Node) :
    exOk (extractCategories cs) = !(cs.any badCategory) := by
  induction cs with
  | nil => simp [extractCategories, exOk]
  | cons c rest ih =>
    simp only [extractCategories, List.any_cons]
    cases hc : extractCategory c with
    | error e =>
      have h3 := extractCategory_ok c
      rw [hc] at h3
      simp [exOk, ← h3]
    | ok r =>
      have h3 := extractCategory_ok c
      rw [hc] at h3
      cases hr : extractCategories rest with
      | error e =>
        rw [hr] at ih
        simp [exOk, ← h3, ← ih]
      | ok rs =>
        rw [hr] at ih
        simp [exOk, ← h3, ← ih]

theorem extractCategories_error_shape (cs : List Node) (e : ScrapeError)
    (h : extractCategories cs = .error e) : ∃ r, e = .parseError r := by
  induction cs with
  | nil => exact Except.noConfusion h
  | cons c rest ih =>
    simp only [extractCategories] at h
    cases hc : extractCategory c <;> simp only [hc] at h
    case error e2 =>
      injection h with h5
      rw [← h5]
      exact extractCategory_error_shape c e2 hc
    case ok r =>
      cases hr : extractCategories rest <;> simp only [hr] at h
      case error e2 =>
        injection h with h5
        subst h5
        exact ih hr
      case ok rs => exact Except.noConfusion h

theorem extractCategories_names (cs : List Node) (rs : List CategoryRecord)
    (h : extractCategories cs = .ok rs) :
    rs.map CategoryRecord.category = cs.map headingTextD := by
  induction cs generalizing rs with
  | nil =>
    injection h with h5
    rw [← h5]
    simp
  | cons c rest ih =>
    simp only [extractCategories] at h
    cases hc : extractCategory c <;> simp only [hc] at h
    case error e2 => exact Except.noConfusion h
    case ok r =>
      cases hr : extractCategories rest <;> simp only [hr] at h
      case error e2 => exact Except.noConfusion h
      case ok rs2 =>
        injection h with h5
        rw [← h5]
        simp only [List.map_cons]
        rw [(extractCategory_fields c r hc).1, ih rs2 hr]

theorem extractCategories_mem (cs : List Node) (rs : List CategoryRecord)
    (h : extractCategories cs = .ok rs) (r : CategoryRecord) (hr : r ∈ rs) :
    ∃ c ∈ cs, extractCategory c = .ok r := by
  induction cs generalizing rs with
  | nil =>
    injection h with h5
    rw [← h5] at hr
    exact absurd hr (List.not_mem_nil r)
  | cons c rest ih =>
    simp only [extractCategories] at h
    cases hc : extractCategory c <;> simp only [hc] at h
    case error e2 => exact Except.noConfusion h
    case ok r2 =>
      cases hrest : extractCategories rest <;> simp only [hrest] at h
      case error e2 => exact Except.noConfusion h
      case ok rs2 =>
        injection h with h5
        rw [← h5] at hr
        rcases List.mem_cons.mp hr with h6 | h6
        · exact ⟨c, List.mem_cons_self c rest, by rw [h6]; exact hc⟩
        · obtain ⟨c2, hc2, he⟩ := ih rs2 hrest h6
          exact ⟨c2, List.mem_cons_of_mem c hc2, he⟩

theorem extractDoc_ok (doc : Node) :
    exOk (extractDoc doc) = !amendedBad doc := by
  simp only [extractDoc, amendedBad, hasContainer, categoryBlocks]
  cases h1 : findAll containerPred doc with
  | nil => simp [exOk]
  | cons container rest =>
    simp only [List.isEmpty_cons, Bool.not_false, Bool.true_and]
    exact extractCategories_ok (findAll categoryPred container)

theorem extractDoc_error_shape (doc : Node) (e : ScrapeError)
    (h : extractDoc doc = .error e) : ∃ r, e = .parseError r := by
  simp only [extractDoc] at h
  cases h1 : findAll containerPred doc <;> simp only [h1] at h
  case nil => injection h with h5; exact ⟨_, h5.symm⟩
  case cons container rest => exact extractCategories_error_shape _ e h

theorem extractDoc_names (doc : Node) (cats : List CategoryRecord)
    (h : extractDoc doc = .ok cats) :
    cats.map CategoryRecord.category = (categoryBlocks doc).map headingTextD := by
  simp only [extractDoc] at h
  simp only [categoryBlocks]
  cases h1 : findAll containerPred doc <;> simp only [h1] at h
  case nil => exact Except.noConfusion h
  case cons container rest => exact extractCategories_names _ cats h

theorem extractDoc_mem (doc : Node) (cats : List CategoryRecord)
    (h : extractDoc doc = .ok cats) (r : CategoryRecord) (hr : r ∈ cats) :
    ∃ c ∈ categoryBlocks doc, extractCategory c = .ok r := by
  simp only [extractDoc] at h
  simp only [categoryBlocks]
  cases h1 : findAll containerPred doc <;> simp only [h1] at h
  case nil => exact Except.noConfusion h
  case cons container rest => exact extractCategories_mem _ cats h r hr

theorem extractBooksFrom_elems (bs : List Node) (k : Nat) (l : List Book)
    (h : extractBooksFrom k bs = .ok l) :
    l.length = bs.length ∧
    ∀ j b, bs.get? j = some b →
      ∃ bk, l.get? j = some bk ∧ extractBook (k + j) b = .ok bk := by
  induction bs generalizing k l with
  | nil =>
    injection h with h5
    rw [← h5]
    exact ⟨rfl, fun j b hj => by simp at hj⟩
  | cons b0 rest ih =>
    simp only [extractBooksFrom] at h
    cases hb : extractBook k b0 <;> simp only [hb] at h
    case error e => exact Except.noConfusion h
    case ok bk0 =>
      cases hr : extractBooksFrom (k + 1) rest <;> simp only [hr] at h
      case error e => exact Except.noConfusion h
      case ok bks =>
        injection h with h5
        rw [← h5]
        obtain ⟨hlen, helem⟩ := ih (k + 1) bks hr
        constructor
        · simp [hlen]
        · intro j b hj
          cases j with
          | zero =>
            simp only [List.get?_cons_zero] at hj
            injection hj with h6
            exact ⟨bk0, rfl, by rw [← h6, Nat.add_zero]; exact hb⟩
          | succ j2 =>
            simp only [List.get?_cons_succ] at hj ⊢
            obtain ⟨bk, hbk, hext⟩ := helem j2 b hj
            refine ⟨bk, hbk, ?_⟩
            have h7 : k + (j2 + 1) = k + 1 + j2 := by omega
            rw [h7]
            exact hext

theorem extractCategories_elems (cs : List Node) (rs : List CategoryRecord)
    (h : extractCategories cs = .ok rs) :
    rs.length = cs.length ∧
    ∀ i c, cs.get? i = some c → ∃ r, rs.get? i = some r ∧ extractCategory c = .ok r := by
  induction cs generalizing rs with
  | nil =>
    injection h with h5
    rw [← h5]
    exact ⟨rfl, fun i c hi => by simp at hi⟩
  | cons c0 rest ih =>
    simp only [extractCategories] at h
    cases hc : extractCategory c0 <;> simp only [hc] at h
    case error e => exact Except.noConfusion h
    case ok r0 =>
      cases hrest : extractCategories rest <;> simp only [hrest] at h
      case error e => exact Except.noConfusion h
      case ok rs2 =>
        injection h with h5
        rw [← h5]
        obtain ⟨hlen, helem⟩ := ih rs2 hrest
        constructor
        · simp [hlen]
        · intro i c hi
          cases i with
          | zero =>
            simp only [List.get?_cons_zero] at hi
            injection hi with h6
            exact ⟨r0, rfl, by rw [← h6]; exact hc⟩
          | succ i2 =>
            simp only [List.get?_cons_succ] at hi ⊢
            exact helem i2 c hi

theorem extractDoc_categories (doc : Node) (cats : List CategoryRecord)
    (h : extractDoc doc = .ok cats) :
    extractCategories (categoryBlocks doc) = .ok cats := by
  simp only [extractDoc] at h
  simp only [categoryBlocks]
  cases h1 : findAll containerPred doc <;> simp only [h1] at h ⊢
  case nil => exact Except.noConfusion h
  case cons container rest => exact h

theorem seqOks_ok_iff {α : Type} (res : List (Except ScrapeError α)) (l : List α) :
    seqOks res = .ok l ↔ res = l.map Except.ok := by
  induction res generalizing l with
  | nil =>
    constructor
    · intro h
      injection h with h5
      rw [← h5]
      simp
    · intro h
      cases l with
      | nil => rfl
      | cons x xs => simp at h
  | cons hd tl ih =>
    cases hd with
    | error e =>
      simp only [seqOks]
      constructor
      · intro h
        exact Except.noConfusion h
      · intro h
        cases l with
        | nil => simp at h
        | cons x xs => simp at h
    | ok a =>
      simp only [seqOks]
      cases hr : seqOks tl with
      | error e =>
        constructor
        · intro h
          exact Except.noConfusion h
        · intro h
          cases l with
          | nil => simp at h
          | cons x xs =>
            simp only [List.map_cons, List.cons.injEq, Except.ok.injEq] at h
            rw [(ih xs).mpr h.2] at hr
            exact Except.noConfusion hr
      | ok ys =>
        constructor
        · intro h
          injection h with h5
          rw [← h5]
          simp only [List.map_cons, List.cons.injEq]
          exact ⟨trivial, (ih ys).mp hr⟩
        · intro h
          cases l with
          | nil => simp at h
          | cons x xs =>
            simp only [List.map_cons, List.cons.injEq, Except.ok.injEq] at h
            rw [(ih xs).mpr h.2] at hr
            injection hr with h6
            rw [h.1, h6]

theorem fce_eq_none {α : Type} (res : List (Except ScrapeError α)) (order : List Nat)
    (h : ∀ i ∈ order, ∀ e, res.get? i ≠ some (.error e)) :
    firstCompletedError res order = none := by
  induction order with
  | nil => rfl
  | cons i rest ih =>
    simp only [firstCompletedError]
    cases hg : res.get? i with
    | none => exact ih fun j hj => h j (List.mem_cons_of_mem i hj)
    | some r =>
      cases r with
      | error e => exact absurd hg (h i (List.mem_cons_self i rest) e)
      | ok a => exact ih fun j hj => h j (List.mem_cons_of_mem i hj)

theorem fce_some_mem {α : Type} (res : List (Except ScrapeError α)) (order : List Nat)
    (e : ScrapeError) (h : firstCompletedError res order = some e) :
    ∃ i ∈ order, res.get? i = some (.error e) := by
  induction order with
  | nil => exact Option.noConfusion h
  | cons j rest ih =>
    simp only [firstCompletedError] at h
    cases hg : res.get? j <;> simp only [hg] at h
    case none =>
      obtain ⟨i, hi, hie⟩ := ih h
      exact ⟨i, List.mem_cons_of_mem j hi, hie⟩
    case some r =>
      cases r with
      | error e2 =>
        simp only at h
        injection h with h5
        subst h5
        exact ⟨j, List.mem_cons_self j rest, hg⟩
      | ok a =>
        obtain ⟨i, hi, hie⟩ := ih h
        exact ⟨i, List.mem_cons_of_mem j hi, hie⟩

theorem fce_some_of_err {α : Type} (res : List (Except ScrapeError α)) (order : List Nat)
    (i : Nat) (hi : i ∈ order) (e : ScrapeError) (he : res.get? i = some (.error e)) :
    ∃ e2, firstCompletedError res order = some e2 := by
  induction order with
  | nil => exact absurd hi (List.not_mem_nil i)
  | cons j rest ih =>
    simp only [firstCompletedError]
    cases hg : res.get? j with
    | none =>
      rcases List.mem_cons.mp hi with h6 | h6
      · rw [h6] at he
        rw [he] at hg
        exact Option.noConfusion hg
      · exact ih h6
    | some r =>
      cases r with
      | error e2 => exact ⟨e2, rfl⟩
      | ok a =>
        rcases List.mem_cons.mp hi with h6 | h6
        · rw [h6] at he
          rw [he] at hg
          injection hg with h7
          exact Except.noConfusion h7
        · exact ih h6

theorem fce_none_of_ok {α : Type} (l : List α) (order : List Nat) :
    firstCompletedError (l.map Except.ok) order = none := by
  apply fce_eq_none
  intro i _ e hc
  rw [List.get?_map] at hc
  cases hg : l.get? i <;> rw [hg] at hc <;> simp at hc

theorem poolMap_ok_iff {α : Type} (task : Nat → Except ScrapeError α) (inputs : List Nat)
    (order : List Nat) (l : List α) :
    poolMap task inputs order = .ok l ↔ inputs.map task = l.map Except.ok := by
  simp only [poolMap]
  cases hf : firstCompletedError (inputs.map task) order with
  | some e =>
    constructor
    · intro h
      exact Except.noConfusion h
    · intro h
      rw [h, fce_none_of_ok l order] at hf
      exact Option.noConfusion hf
  | none => exact seqOks_ok_iff _ l

theorem poolMap_error_surface {α : Type} (task : Nat → Except ScrapeError α)
    (inputs order : List Nat) (hperm : order.Perm (List.range inputs.length))
    (w : Nat) (hw : w ∈ inputs) (e0 : ScrapeError) (hfail : task w = .error e0) :
    ∃ e, poolMap task inputs order = .error e ∧ ∃ w2 ∈ inputs, task w2 = .error e := by
  obtain ⟨i, hi⟩ := List.mem_iff_get.mp hw
  have hgi : (inputs.map task).get? i = some (.error e0) := by
    rw [List.get?_map, List.get?_eq_get i.isLt, hi]
    simp [hfail]
  have himem : (i : Nat) ∈ order := by
    rw [hperm.mem_iff, List.mem_range]
    exact i.isLt
  obtain ⟨e, hfce⟩ := fce_some_of_err (inputs.map task) order i himem e0 hgi
  refine ⟨e, ?_, ?_⟩
  · simp only [poolMap, hfce]
  · obtain ⟨j, _, hje⟩ := fce_some_mem (inputs.map task) order e hfce
    rw [List.get?_map] at hje
    cases hg : inputs.get? j with
    | none => rw [hg] at hje; exact Option.noConfusion hje
    | some w2 =>
      rw [hg] at hje
      injection hje with h7
      exact ⟨w2, List.get?_mem hg, h7⟩

/-- Ordinal of a calendar date given as a triple. -/
def ymd2ordT (t : Int × Int × Int) : Int :=
  ymd2ord t.1 t.2.1 t.2.2

theorem dbmTable_one : daysBeforeMonthTable 1 = 0 := by decide

theorem dbmTable_twelve : daysBeforeMonthTable 12 = 334 := by decide

theorem dbm_sub_dim (m : Int) (h2 : 2 ≤ m) (h12 : m ≤ 12) :
    daysBeforeMonthTable m - daysInMonthTable (m - 1) = daysBeforeMonthTable (m - 1) := by
  have hm : m = 2 ∨ m = 3 ∨ m = 4 ∨ m = 5 ∨ m = 6 ∨ m = 7 ∨ m = 8 ∨ m = 9 ∨
      m = 10 ∨ m = 11 ∨ m = 12 := by omega
  rcases hm with h|h|h|h|h|h|h|h|h|h|h <;> subst h <;> decide

set_option maxHeartbeats 2000000 in
theorem rt_aux (n400 n100 n4 ny n : Int)
    (hn : 0 ≤ n) (hn2 : n ≤ 364)
    (hny : 0 ≤ ny) (hny2 : ny ≤ 4)
    (hn4 : 0 ≤ n4) (hn42 : n4 ≤ 24)
    (h100 : 0 ≤ n100) (h1002 : n100 ≤ 4)
    (hr3 : 365 * ny + n ≤ 1460)
    (hr2 : 1461 * n4 + 365 * ny + n ≤ 36523)
    (hr1 : 36524 * n100 + 1461 * n4 + 365 * ny + n ≤ 146096) :
    ymd2ordT (ord2ymdAux n400 n100 n4 ny n) =
      146097 * n400 + 36524 * n100 + 1461 * n4 + 365 * ny + n + 1 := by
  have hmk : ∀ y m d : Int, ymd2ordT (y, m, d) = daysBeforeYear y + daysBeforeMonth y m + d :=
    fun _ _ _ => rfl
  simp only [ord2ymdAux]
  by_cases hs : ny = 4 ∨ n100 = 4
  · rw [if_pos hs]
    simp only [hmk, daysBeforeYear, daysBeforeMonth, dbmTable_twelve,
      isLeap, decide_eq_true_eq]
    split_ifs <;> omega
  · rw [if_neg hs]
    rw [apply_ite ymd2ordT]
    rcases (by omega : (n + 50) / 32 = 1 ∨ (2 ≤ (n + 50) / 32 ∧ (n + 50) / 32 ≤ 12))
      with hm | hm
    · rw [hm]
      simp only [hmk, daysBeforeMonth, daysBeforeYear, isLeapOfEra, isLeap,
        decide_eq_true_eq, dbmTable_one]
      split_ifs <;> omega
    · have htab := dbm_sub_dim ((n + 50) / 32) hm.1 hm.2
      simp only [hmk, daysBeforeMonth, daysBeforeYear, isLeapOfEra, isLeap,
        decide_eq_true_eq]
      split_ifs <;> omega

theorem ymd2ord_ord2ymd (nn : Int) : ymd2ordT (ord2ymd nn) = nn := by
  rw [ord2ymd, rt_aux _ _ _ _ _ (by omega) (by omega) (by omega) (by omega) (by omega)
    (by omega) (by omega) (by omega) (by omega) (by omega) (by omega)]
  omega

/-- C3 counterexample: the document srcLessDoc has the scoped container, a
heading in its category, and title, description and image elements in its
item, so none of the claimed failure conditions holds, yet extraction
fails with a parse error because the image element has no src
attribute. -/
theorem claim_C3_counterexample :
    extractDoc srcLessDoc = .error (.parseError "book image src attribute not found") ∧
    claimedBad srcLessDoc = false :=
  ⟨rfl, rfl⟩

/-- C3 (amended): extraction fails with a parse error exactly when the
container is absent, a category lacks a heading, an item lacks a title,
description or image element, or the image element of an item lacks a src
attribute; and whenever that holds no category sequence is produced. -/
theorem claim_C3 (doc : Node) :
    ((∃ r, extractDoc doc = .error (.parseError r)) ↔ amendedBad doc = true) ∧
    (amendedBad doc = true → ∀ cats, extractDoc doc ≠ .ok cats) := by
  have hmain : (∃ r, extractDoc doc = .error (.parseError r)) ↔ amendedBad doc = true := by
    cases h : extractDoc doc with
    | ok cats =>
      have hbadf : amendedBad doc = false := by
        have hok := extractDoc_ok doc
        rw [h] at hok
        cases hb : amendedBad doc
        · rfl
        · rw [hb] at hok
          simp [exOk] at hok
      constructor
      · rintro ⟨r, hr⟩
        exact Except.noConfusion hr
      · intro hbad
        rw [hbadf] at hbad
        exact Bool.noConfusion hbad
    | error e =>
      have hbadt : amendedBad doc = true := by
        have hok := extractDoc_ok doc
        rw [h] at hok
        cases hb : amendedBad doc
        · rw [hb] at hok
          simp [exOk] at hok
        · rfl
      obtain ⟨r, hr⟩ := extractDoc_error_shape doc e h
      exact ⟨fun _ => hbadt, fun _ => ⟨r, by rw [hr]⟩⟩
  refine ⟨hmain, ?_⟩
  intro hbad cats hcats
  have hok := extractDoc_ok doc
  rw [hcats, hbad] at hok
  simp [exOk] at hok

/-- C3 witness: a concrete document on which the amended failure
condition holds and extraction indeed fails with a parse error. -/
theorem claim_C3_witness :
    amendedBad srcLessDoc = true ∧ (∃ r, extractDoc srcLessDoc = .error (.parseError r)) :=
  ⟨rfl, (claim_C3 srcLessDoc).1.mpr rfl⟩

/-- C4: in every successful extraction, the position fields of each
category form the dense sequence 1, 2, ... with no gaps or repeats,
because positions are assigned from enumeration order. -/
theorem claim_C4 (doc : Node) (cats : List CategoryRecord)
    (h : extractDoc doc = .ok cats) (c : CategoryRecord) (hc : c ∈ cats) :
    c.books.map Book.position = List.range' 1 c.books.length := by
  obtain ⟨cb, _, hcb⟩ := extractDoc_mem doc cats h c hc
  exact extractBooksFrom_positions (bookBlocks cb) 1 c.books
    (extractCategory_fields cb c hcb).2

/-- C4 witness: the category extracted from the fake document has
positions 1, 2. -/
theorem claim_C4_witness :
    fakeCat.books.map Book.position = List.range' 1 fakeCat.books.length :=
  claim_C4 fakeDoc fakeExpected rfl fakeCat (by decide)

/-- C5: the fixed fake document round-trips to exactly the single
expected category record with its two items in order; and for every
document and every successful extraction, the output mirrors the
document one for one and in order, with no sorting, filtering or
deduplication: the category-name sequence equals the heading sequence of
the category blocks, there are exactly as many records as category
blocks, the record at index i is extracted from the category block at
index i, it has exactly as many items as that block has item blocks, and
its item at index j is extracted from the item block at index j with
rank j plus one. -/
theorem claim_C5 :
    extractDoc fakeDoc = .ok fakeExpected ∧
    (∀ doc cats, extractDoc doc = .ok cats →
      cats.map CategoryRecord.category = (categoryBlocks doc).map headingTextD) ∧
    (∀ doc cats, extractDoc doc = .ok cats →
      cats.length = (categoryBlocks doc).length ∧
      ∀ i c, (categoryBlocks doc).get? i = some c →
        ∃ r, cats.get? i = some r ∧
          r.category = headingTextD c ∧
          r.books.length = (bookBlocks c).length ∧
          ∀ j b, (bookBlocks c).get? j = some b →
            ∃ bk, r.books.get? j = some bk ∧ extractBook (j + 1) b = .ok bk) := by
  refine ⟨rfl, fun doc cats h => extractDoc_names doc cats h, fun doc cats h => ?_⟩
  have hcats := extractDoc_categories doc cats h
  obtain ⟨hlen, helem⟩ := extractCategories_elems (categoryBlocks doc) cats hcats
  refine ⟨hlen, fun i c hi => ?_⟩
  obtain ⟨r, hr, hcr⟩ := helem i c hi
  have hf := extractCategory_fields c r hcr
  obtain ⟨hblen, hbelem⟩ := extractBooksFrom_elems (bookBlocks c) 1 r.books hf.2
  refine ⟨r, hr, hf.1, hblen, fun j b hj => ?_⟩
  obtain ⟨bk, hbk, hext⟩ := hbelem j b hj
  refine ⟨bk, hbk, ?_⟩
  rw [Nat.add_comm] at hext
  exact hext

/-- C5 witness: the order-preservation parts applied to the fake
document: its name sequence matches the heading sequence and it has as
many records as category blocks. -/
theorem claim_C5_witness :
    fakeExpected.map CategoryRecord.category = (categoryBlocks fakeDoc).map headingTextD ∧
    fakeExpected.length = (categoryBlocks fakeDoc).length :=
  ⟨claim_C5.2.1 fakeDoc fakeExpected claim_C5.1,
   (claim_C5.2.2 fakeDoc fakeExpected claim_C5.1).1⟩

/-- C9: a success response whose document has the scoped container but no
category blocks extracts to a week result with the given offset and an
empty category list, with no error raised. -/
theorem claim_C9 (net : Net) (w : Nat) (date : Int) (content : Node) (body : String)
    (hresp : net (build_locator date w) 5 = .response 200 content body)
    (hcont : hasContainer content = true)
    (hempty : categoryBlocks content = []) :
    scrape_best_seller net w date = .ok ⟨w, []⟩ := by
  have hdoc : extractDoc content = .ok [] := by
    cases h1 : findAll containerPred content with
    | nil =>
      rw [hasContainer, h1] at hcont
      simp at hcont
    | cons cont rest =>
      simp only [categoryBlocks, h1] at hempty
      simp only [extractDoc, h1, hempty]
      rfl
  simp [scrape_best_seller, hresp, hdoc]

/-- C9 witness: a network answering with the empty-container document
gives the empty week result for offset 0. -/
theorem claim_C9_witness :
    scrape_best_seller okNet 0 wDate = .ok ⟨0, []⟩ :=
  claim_C9 okNet 0 wDate emptyContainerDoc "" rfl rfl rfl

/-- C10: a category block that has a heading but no item blocks extracts
to a record with the heading text and an empty item list, with no error
raised and the category not skipped. -/
theorem claim_C10 (c : Node) (h2 : Node)
    (hh : find headingPred c = some h2) (hnone : bookBlocks c = []) :
    extractCategory c = .ok ⟨h2.innerText, []⟩ := by
  simp only [bookBlocks] at hnone
  simp only [extractCategory, hh, hnone]
  rfl

/-- C10 witness: the empty Poetry category block extracts to a record
with name Poetry and no items. -/
theorem claim_C10_witness :
    extractCategory emptyCat = .ok ⟨"Poetry", []⟩ :=
  claim_C10 emptyCat (.elem "h2" [] [] [.text "Poetry"]) rfl rfl

/-- C1: the successful output of the pipeline does not depend on the pool
size or on the completion order, and every per-week result sits at the
index of its originating offset; in particular the run over offsets 0, 1,
2 with pool size 1 and with pool size 3 gives the same result list under
any completion orders. -/
theorem claim_C1 (net : Net) (date : Int) (o1 o2 : List Nat) :
    (∀ l, run net date 1 [0, 1, 2] o1 = .ok l ↔ run net date 3 [0, 1, 2] o2 = .ok l) ∧
    (∀ poolSize offsets order l, run net date poolSize offsets order = .ok l →
      l.length = offsets.length ∧
      ∀ i, (offsets.get? i).map (fun w => scrape_best_seller net w date) =
        (l.get? i).map Except.ok) := by
  constructor
  · intro l
    constructor
    · intro h
      exact (poolMap_ok_iff (fun w => scrape_best_seller net w date) [0, 1, 2] o2 l).mpr
        ((poolMap_ok_iff (fun w => scrape_best_seller net w date) [0, 1, 2] o1 l).mp h)
    · intro h
      exact (poolMap_ok_iff (fun w => scrape_best_seller net w date) [0, 1, 2] o1 l).mpr
        ((poolMap_ok_iff (fun w => scrape_best_seller net w date) [0, 1, 2] o2 l).mp h)
  · intro poolSize offsets order l h
    have hmap := (poolMap_ok_iff (fun w => scrape_best_seller net w date) offsets order l).mp h
    refine ⟨?_, ?_⟩
    · have hlen := congrArg List.length hmap
      simpa using hlen.symm
    · intro i
      have hi := congrArg (fun xs => xs.get? i) hmap
      simpa [List.get?_map] using hi

/-- C1 witness: the run over offsets 0, 1, 2 against a fixed network
gives the same list with pool size 1, order 0 1 2 and pool size 3, order
2 0 1, and the entry at index 1 is the result of offset 1. -/
theorem claim_C1_witness :
    (run okNet wDate 1 [0, 1, 2] [0, 1, 2] = .ok runExpected ↔
      run okNet wDate 3 [0, 1, 2] [2, 0, 1] = .ok runExpected) ∧
    runExpected.length = [0, 1, 2].length ∧
    (([0, 1, 2] : List Nat).get? 1).map (fun w => scrape_best_seller okNet w wDate) =
      (runExpected.get? 1).map Except.ok :=
  ⟨(claim_C1 okNet wDate [0, 1, 2] [2, 0, 1]).1 runExpected,
   ((claim_C1 okNet wDate [0, 1, 2] [2, 0, 1]).2 1 [0, 1, 2] [0, 1, 2] runExpected rfl).1,
   ((claim_C1 okNet wDate [0, 1, 2] [2, 0, 1]).2 1 [0, 1, 2] [0, 1, 2] runExpected rfl).2 1⟩

/-- C2: when any task of the run fails, the run surfaces the error of a
failing task unmodified and produces no result list at all. -/
theorem claim_C2 (net : Net) (date : Int) (poolSize : Nat) (offsets order : List Nat)
    (hperm : order.Perm (List.range offsets.length))
    (w : Nat) (hw : w ∈ offsets) (e0 : ScrapeError)
    (hfail : scrape_best_seller net w date = .error e0) :
    (∀ l, run net date poolSize offsets order ≠ .ok l) ∧
    ∃ e, run net date poolSize offsets order = .error e ∧
      ∃ w2 ∈ offsets, scrape_best_seller net w2 date = .error e := by
  obtain ⟨e, he, hw2⟩ :=
    poolMap_error_surface (fun w2 => scrape_best_seller net w2 date) offsets order
      hperm w hw e0 hfail
  have hrun : run net date poolSize offsets order = .error e := he
  exact ⟨fun l hl => by rw [hrun] at hl; exact Except.noConfusion hl, e, hrun, hw2⟩

/-- C2 witness: with a network failing the week-1 page, the run over
offsets 0, 1, 2 errors with that fetch error and returns no list. -/
theorem claim_C2_witness :
    (∀ l, run failNet wDate 2 [0, 1, 2] [2, 1, 0] ≠ .ok l) ∧
    ∃ e, run failNet wDate 2 [0, 1, 2] [2, 1, 0] = .error e ∧
      ∃ w2 ∈ [0, 1, 2], scrape_best_seller failNet w2 wDate = .error e :=
  claim_C2 failNet wDate 2 [0, 1, 2] [2, 1, 0] (by decide) 1 (by decide)
    (.fetchError 404 "not found") (by rfl)

/-- C6: build_locator is deterministic, renders the fixed base path plus
the historical date in Y slash m slash d form, and the embedded calendar
date is exactly the reference ordinal minus seven days per offset, since
converting it back with ymd2ord recovers that ordinal. -/
theorem claim_C6 (ref : Int) (k : Nat) (hk : k < 105) :
    build_locator ref k = build_locator ref k ∧
    build_locator ref k =
      "https://www.nytimes.com/books/best-sellers/" ++ strftimeYMD (ref - 7 * (k : Int)) ++ "/" ∧
    ymd2ordT (ord2ymd (ref - 7 * (k : Int))) = ref - 7 * (k : Int) :=
  ⟨rfl, rfl, ymd2ord_ord2ymd _⟩

/-- C6 witness: the locator for offset 3 from the fixed reference date. -/
theorem claim_C6_witness :
    build_locator wDate 3 = build_locator wDate 3 ∧
    build_locator wDate 3 =
      "https://www.nytimes.com/books/best-sellers/" ++
        strftimeYMD (wDate - 7 * ((3 : Nat) : Int)) ++ "/" ∧
    ymd2ordT (ord2ymd (wDate - 7 * ((3 : Nat) : Int))) = wDate - 7 * ((3 : Nat) : Int) :=
  claim_C6 wDate 3 (by norm_num)

/-- C7: the per-week fetch fails with a fetch error carrying the response
status and body exactly when the response status is not 200, a timeout is
surfaced as an error of the fetch group, a success status hands the raw
document to extraction, and the result depends only on what the network
answers at timeout 5, the fixed bound passed to every request. -/
theorem claim_C7 (net : Net) (w : Nat) (date : Int) :
    (∀ status body, (scrape_best_seller net w date = .error (.fetchError status body)) ↔
      ∃ content, net (build_locator date w) 5 = .response status content body ∧ status ≠ 200) ∧
    (net (build_locator date w) 5 = .timeout →
      scrape_best_seller net w date = .error .fetchTimeout) ∧
    (ScrapeError.fetchTimeout.isFetchGroup = true ∧
      ∀ status body, (ScrapeError.fetchError status body).isFetchGroup = true) ∧
    (∀ content body, net (build_locator date w) 5 = .response 200 content body →
      scrape_best_seller net w date = (extractDoc content).map (fun cats => ⟨w, cats⟩)) ∧
    (∀ net2 : Net, (∀ u, net u 5 = net2 u 5) →
      scrape_best_seller net w date = scrape_best_seller net2 w date) := by
  refine ⟨?_, ?_, ⟨rfl, fun _ _ => rfl⟩, ?_, ?_⟩
  · intro status body
    constructor
    · intro h
      cases hresp : net (build_locator date w) 5 with
      | timeout =>
        simp only [scrape_best_seller, hresp] at h
        injection h with h2
        exact ScrapeError.noConfusion h2
      | response s c b =>
        simp only [scrape_best_seller, hresp] at h
        by_cases hs : s = 200
        · subst hs
          simp only [reduceIte] at h
          cases hd : extractDoc c with
          | error e =>
            simp only [hd] at h
            obtain ⟨r, hr⟩ := extractDoc_error_shape c e hd
            injection h with h2
            rw [hr] at h2
            exact ScrapeError.noConfusion h2
          | ok cats =>
            simp only [hd] at h
            exact Except.noConfusion h
        · rw [if_neg hs] at h
          injection h with h2
          injection h2 with h3 h4
          subst h3
          subst h4
          exact ⟨c, rfl, hs⟩
    · rintro ⟨content, hresp, hs⟩
      simp only [scrape_best_seller, hresp, if_neg hs]
  · intro ht
    simp only [scrape_best_seller, ht]
  · intro content body hresp
    simp only [scrape_best_seller, hresp, reduceIte]
    cases hd : extractDoc content <;> simp [hd, Except.map]
  · intro net2 hsame
    simp only [scrape_best_seller, hsame (build_locator date w)]

/-- C7 witness: against the fixed success network, the fetch for offset 0
hands the empty-container document to extraction. -/
theorem claim_C7_witness :
    scrape_best_seller okNet 0 wDate =
      (extractDoc emptyContainerDoc).map (fun cats => ⟨0, cats⟩) :=
  (claim_C7 okNet 0 wDate).2.2.2.1 emptyContainerDoc "" rfl

/-- C8: the date resolver fails with a fetch error carrying status and
body exactly when the landing response status is not 200, surfaces a
timeout as a timeout error, under a success status fails with a parse
error exactly when the date element is missing or its text does not
parse, otherwise returns the parsed date; and the outcome depends only on
the single landing-page request at timeout 5, so no retry can occur. -/
theorem claim_C8 (net : Net) :
    (∀ status body, (get_main_date net = .error (.fetchError status body)) ↔
      ∃ content, net mainURL 5 = .response status content body ∧ status ≠ 200) ∧
    (net mainURL 5 = .timeout → get_main_date net = .error .fetchTimeout) ∧
    (∀ content body, net mainURL 5 = .response 200 content body →
      (((∃ r, get_main_date net = .error (.parseError r)) ↔
          (find timePred content = none ∨
            ∃ t, find timePred content = some t ∧ strptimeBdY t.innerText = none)) ∧
        (∀ t d, find timePred content = some t → strptimeBdY t.innerText = some d →
          get_main_date net = .ok d))) ∧
    (∀ net2 : Net, net mainURL 5 = net2 mainURL 5 → get_main_date net = get_main_date net2) := by
  refine ⟨?_, ?_, ?_, ?_⟩
  · intro status body
    constructor
    · intro h
      cases hresp : net mainURL 5 with
      | timeout =>
        simp only [get_main_date, hresp] at h
        injection h with h2
        exact ScrapeError.noConfusion h2
      | response s c b =>
        simp only [get_main_date, hresp] at h
        by_cases hs : s = 200
        · subst hs
          simp only [reduceIte] at h
          cases hf : find timePred c with
          | none =>
            simp only [hf] at h
            injection h with h2
            exact ScrapeError.noConfusion h2
          | some t =>
            simp only [hf] at h
            cases hp : strptimeBdY t.innerText with
            | none =>
              simp only [hp] at h
              injection h with h2
              exact ScrapeError.noConfusion h2
            | some d =>
              simp only [hp] at h
              exact Except.noConfusion h
        · rw [if_neg hs] at h
          injection h with h0
          injection h0 with h3 h4
          subst h3
          subst h4
          exact ⟨c, rfl, hs⟩
    · rintro ⟨content, hresp, hs⟩
      simp only [get_main_date, hresp, if_neg hs]
  · intro ht
    simp only [get_main_date, ht]
  · intro content body hresp
    constructor
    · cases hf : find timePred content with
      | none =>
        constructor
        · intro _
          exact Or.inl rfl
        · intro _
          refine ⟨"time element not found", ?_⟩
          simp only [get_main_date, hresp, reduceIte, hf]
      | some t =>
        cases hp : strptimeBdY t.innerText with
        | none =>
          constructor
          · intro _
            exact Or.inr ⟨t, rfl, hp⟩
          · intro _
            refine ⟨"date text does not match format", ?_⟩
            simp only [get_main_date, hresp, reduceIte, hf, hp]
        | some d =>
          constructor
          · rintro ⟨r, hr⟩
            simp only [get_main_date, hresp, reduceIte, hf, hp] at hr
            exact Except.noConfusion hr
          · rintro (hnone | ⟨t2, ht2, hp2⟩)
            · exact Option.noConfusion hnone
            · injection ht2 with h6
              rw [← h6] at hp2
              rw [hp2] at hp
              exact Option.noConfusion hp
    · intro t d hf hp
      simp only [get_main_date, hresp, reduceIte, hf, hp]
  · intro net2 hsame
    simp only [get_main_date, hsame]

/-- C8 witness: against a landing page displaying October 8, 2023, the
resolver returns the ordinal of that date. -/
theorem claim_C8_witness :
    get_main_date mainNet = .ok 738801 :=
  ((claim_C8 mainNet).2.2.1 mainDoc "" rfl).2
    (.elem "time" ["css-6068ga"] [] [.text "October 8, 2023"]) 738801 rfl rfl

end NytBestSellers
